import Mathlib

/-!
Verification of the 3D cellular-automaton simulation core (src/main.rs).

Shallow embedding: pure Rust functions become Lean functions on Nat/Int
(machine-integer overflow is modelled with explicit `% 2 ^ 32` where the
source performs `u32` shifts); the ECS world is modelled as a list of
cells together with a lookup function; the per-tick `HashMap` cache is
modelled as a function from identifiers to `Option State` updated
pointwise.
-/

set_option maxHeartbeats 1600000

namespace Plato

/-- Binary cell state, from the source `enum State`. -/
inductive State where
  | Active
  | Inactive
deriving DecidableEq, Repr

/-- Rust `Range of u8` as used in `GameRules` fields; `contains` follows
`Range::contains`: `start <= n < end`. -/
structure Range where
  start : Nat
  stop : Nat
deriving DecidableEq, Repr

/-- `Range::contains` from the Rust standard library for half-open ranges. -/
def Range.contains (r : Range) (n : Nat) : Bool :=
  decide (r.start ≤ n) && decide (n < r.stop)

/-- The four transition-rule ranges, from the source `struct GameRules`. -/
structure GameRules where
  reproduction : Range
  underpopulation : Range
  continuation : Range
  overpopulation : Range
deriving DecidableEq, Repr

/-- The rule configuration constructed in `main`. -/
def default_rules : GameRules where
  reproduction := ⟨4, 5⟩
  underpopulation := ⟨0, 2⟩
  continuation := ⟨2, 5⟩
  overpopulation := ⟨5, 28⟩

/-- The per-cell transition applied by `update_state_system`: the body of
the loop over cells, as a pure function of the rules, the pre-tick state
and the freshly computed active-neighbor count. -/
def update_state (rules : GameRules) (state : State) (n : Nat) : State :=
  match state with
  | State.Active =>
    if rules.underpopulation.contains n then State.Inactive
    else if rules.continuation.contains n then State.Active
    else if rules.overpopulation.contains n then State.Inactive
    else State.Active
  | State.Inactive =>
    if rules.reproduction.contains n then State.Active
    else State.Inactive

/-- The initial-state sampler, from `impl Distribution of State for Standard`:
the uniform draw `rng.gen_range(0, 20)` yields a value in `0..20`, and the
match maps `0` to `Active` and everything else to `Inactive`. -/
def sample (draw : Nat) : State :=
  match draw with
  | 0 => State.Active
  | _ => State.Inactive

/-- The coordinate codec `make_entity`: packs the three `u8` coordinates
into a `u32` identifier by or-ing and shifting left 8 bits three times.
`u32` shifts discard the bits shifted past position 31, modelled by the
explicit `% 2 ^ 32`. -/
def make_entity (x y z : Nat) : Nat :=
  let id : Nat := 0
  let id := ((id ||| x) <<< 8) % 2 ^ 32
  let id := ((id ||| y) <<< 8) % 2 ^ 32
  ((id ||| z) <<< 8) % 2 ^ 32

lemma lor_of_lt (a b k : Nat) (hb : b < 2 ^ k) : (a * 2 ^ k) ||| b = a * 2 ^ k + b := by
  apply Nat.eq_of_testBit_eq
  intro i
  rw [Nat.testBit_lor]
  rcases Nat.lt_or_ge i k with hik | hik
  · have h2i : 0 < 2 ^ i := Nat.two_pow_pos i
    have hsplit : 2 ^ k = 2 ^ (k - i) * 2 ^ i := by
      rw [← pow_add]
      congr 1
      omega
    have h1 : a * 2 ^ k / 2 ^ i = a * 2 ^ (k - i) := by
      rw [hsplit, ← Nat.mul_assoc, Nat.mul_div_cancel _ h2i]
    have h2 : (a * 2 ^ k + b) / 2 ^ i = a * 2 ^ (k - i) + b / 2 ^ i := by
      rw [hsplit, ← Nat.mul_assoc, Nat.add_comm, Nat.add_mul_div_right _ _ h2i,
        Nat.add_comm]
    have heven : a * 2 ^ (k - i) % 2 = 0 := by
      have hki : k - i = (k - i - 1) + 1 := by omega
      rw [hki, pow_succ, ← Nat.mul_assoc]
      exact Nat.mul_mod_left _ 2
    rw [Nat.testBit_to_div_mod, Nat.testBit_to_div_mod, Nat.testBit_to_div_mod, h1, h2]
    have hmod : (a * 2 ^ (k - i) + b / 2 ^ i) % 2 = b / 2 ^ i % 2 := by
      omega
    rw [hmod]
    simp [heven]
  · have hb' : b < 2 ^ i := lt_of_lt_of_le hb (Nat.pow_le_pow_right (by omega) hik)
    have hbf : b.testBit i = false := Nat.testBit_lt_two_pow hb'
    have h2k : 0 < 2 ^ k := Nat.two_pow_pos k
    have h2ik : 0 < 2 ^ (i - k) := Nat.two_pow_pos (i - k)
    have hsplit : 2 ^ i = 2 ^ k * 2 ^ (i - k) := by
      rw [← pow_add]
      congr 1
      omega
    have h1 : a * 2 ^ k / 2 ^ i = a / 2 ^ (i - k) := by
      rw [hsplit, ← Nat.div_div_eq_div_mul, Nat.mul_div_cancel _ h2k]
    have h2 : (a * 2 ^ k + b) / 2 ^ i = a / 2 ^ (i - k) := by
      rw [hsplit, ← Nat.div_div_eq_div_mul, Nat.add_comm, Nat.add_mul_div_right _ _ h2k,
        Nat.div_eq_of_lt hb, Nat.zero_add]
    rw [hbf, Nat.testBit_to_div_mod, Nat.testBit_to_div_mod, h1, h2]
    simp

/-- Closed form of the codec on in-range coordinates. -/
lemma make_entity_eq (x y z : Nat) (hx : x < 256) (hy : y < 256) (hz : z < 256) :
    make_entity x y z = ((x * 256 + y) * 256 + z) * 256 := by
  unfold make_entity
  have h0 : (0 : Nat) ||| x = x := Nat.zero_or x
  have s1 : x <<< 8 = x * 256 := by
    rw [Nat.shiftLeft_eq]
  have m1 : x * 256 % 2 ^ 32 = x * 256 := Nat.mod_eq_of_lt (by omega)
  have o2 : (x * 256) ||| y = x * 256 + y := by
    have := lor_of_lt x y 8 (by omega)
    simpa using this
  have s2 : (x * 256 + y) <<< 8 = (x * 256 + y) * 256 := by
    rw [Nat.shiftLeft_eq]
  have m2 : (x * 256 + y) * 256 % 2 ^ 32 = (x * 256 + y) * 256 :=
    Nat.mod_eq_of_lt (by omega)
  have o3 : ((x * 256 + y) * 256) ||| z = (x * 256 + y) * 256 + z := by
    have := lor_of_lt (x * 256 + y) z 8 (by omega)
    simpa using this
  have s3 : ((x * 256 + y) * 256 + z) <<< 8 = ((x * 256 + y) * 256 + z) * 256 := by
    rw [Nat.shiftLeft_eq]
  simp only [h0, s1, m1, o2, s2, m2, o3, s3]
  exact Nat.mod_eq_of_lt (by omega)

lemma make_entity_inj (n : Nat) (hn : n ≤ 256)
    (x y z x' y' z' : Nat)
    (hx : x < n) (hy : y < n) (hz : z < n)
    (hx' : x' < n) (hy' : y' < n) (hz' : z' < n)
    (heq : make_entity x y z = make_entity x' y' z') :
    x = x' ∧ y = y' ∧ z = z' := by
  rw [make_entity_eq x y z (by omega) (by omega) (by omega),
    make_entity_eq x' y' z' (by omega) (by omega) (by omega)] at heq
  omega

/-- C3: the coordinate-to-identifier encoding is injective over the valid
coordinate domain: for all pairs of distinct coordinate triples with each
coordinate in the interval from 0 to room_size (room_size at most 256 per
axis under the 8-bit-per-axis packing), `make_entity` produces distinct
identifiers; equivalently, equal identifiers force equal triples. -/
theorem make_entity_injective (n : Nat) (hn : n ≤ 256)
    (x y z x' y' z' : Nat)
    (hx : x < n) (hy : y < n) (hz : z < n)
    (hx' : x' < n) (hy' : y' < n) (hz' : z' < n)
    (heq : make_entity x y z = make_entity x' y' z') :
    x = x' ∧ y = y' ∧ z = z' :=
  make_entity_inj n hn x y z x' y' z' hx hy hz hx' hy' hz' heq

theorem make_entity_injective_witness :
    make_entity 3 4 5 = make_entity 3 4 5 ∧ (3 = 3 ∧ 4 = 4 ∧ 5 = 5) :=
  ⟨rfl, make_entity_injective 15 (by decide) 3 4 5 3 4 5 (by decide) (by decide)
    (by decide) (by decide) (by decide) (by decide) rfl⟩

/-- C1: the Rule Engine computes the next state from the pre-tick state and
the fresh active-neighbor count by applying, in priority order:
an Active cell becomes Inactive on underpopulation, else stays Active on
continuation, else becomes Inactive on overpopulation, else stays Active;
an Inactive cell becomes Active exactly on reproduction, else stays
Inactive. With the configured default rules: Active with count 1 becomes
Inactive, Active with 3 stays Active, Inactive with 4 becomes Active,
Inactive with 2 stays Inactive. -/
theorem update_state_spec :
    (∀ r n, r.underpopulation.contains n = true →
      update_state r State.Active n = State.Inactive) ∧
    (∀ r n, r.underpopulation.contains n = false →
      r.continuation.contains n = true →
      update_state r State.Active n = State.Active) ∧
    (∀ r n, r.underpopulation.contains n = false →
      r.continuation.contains n = false →
      r.overpopulation.contains n = true →
      update_state r State.Active n = State.Inactive) ∧
    (∀ r n, r.underpopulation.contains n = false →
      r.continuation.contains n = false →
      r.overpopulation.contains n = false →
      update_state r State.Active n = State.Active) ∧
    (∀ r n, r.reproduction.contains n = true →
      update_state r State.Inactive n = State.Active) ∧
    (∀ r n, r.reproduction.contains n = false →
      update_state r State.Inactive n = State.Inactive) ∧
    update_state default_rules State.Active 1 = State.Inactive ∧
    update_state default_rules State.Active 3 = State.Active ∧
    update_state default_rules State.Inactive 4 = State.Active ∧
    update_state default_rules State.Inactive 2 = State.Inactive := by
  refine ⟨?_, ?_, ?_, ?_, ?_, ?_, ?_, ?_, ?_, ?_⟩
  · intro r n h1
    simp [update_state, h1]
  · intro r n h1 h2
    simp [update_state, h1, h2]
  · intro r n h1 h2 h3
    simp [update_state, h1, h2, h3]
  · intro r n h1 h2 h3
    simp [update_state, h1, h2, h3]
  · intro r n h1
    simp [update_state, h1]
  · intro r n h1
    simp [update_state, h1]
  · decide
  · decide
  · decide
  · decide

theorem update_state_spec_witness :
    default_rules.underpopulation.contains 1 = true ∧
    update_state default_rules State.Active 1 = State.Inactive :=
  ⟨by decide, update_state_spec.1 default_rules 1 (by decide)⟩

/-- C10: the initial-state sampler maps a uniform draw from the 20 integers
0 to 19 to Active exactly when the draw is 0, so each cell is independently
Active with probability exactly 1 in 20 at initialization. -/
theorem sample_distribution :
    (∀ d : Nat, sample d = State.Active ↔ d = 0) ∧
    (((Finset.range 20).filter (fun d => sample d = State.Active)).card : ℚ)
        / ((Finset.range 20).card : ℚ) = 1 / 20 := by
  constructor
  · intro d
    cases d <;> simp [sample]
  · have hc : ((Finset.range 20).filter (fun d => sample d = State.Active)).card = 1 := by
      decide
    rw [hc, Finset.card_range]
    norm_num

/-- The bounds check in `make_neighbors_component`: the Rust value
`bounds` is the `i16` range from 0 to room_size, queried with
`Range::contains`. -/
def in_bounds (room_size : Nat) (d : Int) : Prop :=
  0 ≤ d ∧ d < (room_size : Int)

instance (room_size : Nat) (d : Int) : Decidable (in_bounds room_size d) :=
  inferInstanceAs (Decidable (_ ∧ _))

/-- The Neighbor Table Builder `make_neighbors_component`: three nested
loops over the offsets of the cell's coordinates (outermost dz, then dy,
then dx, each running over the coordinate minus one to plus one as `i16`),
keeping the in-bounds triples other than the cell itself and encoding each
kept triple with `make_entity` (the `as u8` casts are `Int.toNat` on the
already-nonnegative kept values). -/
def make_neighbors_component (x y z room_size : Nat) : List Nat :=
  let xi : Int := x
  let yi : Int := y
  let zi : Int := z
  [zi - 1, zi, zi + 1].flatMap fun dz =>
    [yi - 1, yi, yi + 1].flatMap fun dy =>
      [xi - 1, xi, xi + 1].filterMap fun dx =>
        if in_bounds room_size dx ∧ in_bounds room_size dy ∧ in_bounds room_size dz ∧
            ¬(xi = dx ∧ yi = dy ∧ zi = dz)
        then some (make_entity dx.toNat dy.toNat dz.toNat)
        else none

lemma length_filterMap_ite {α β : Type} (p : α → Prop) [DecidablePred p] (f : α → β)
    (l : List α) :
    (l.filterMap fun a => if p a then some (f a) else none).length
      = (l.map fun a => if p a then 1 else 0).sum := by
  induction l with
  | nil => simp
  | cons a l ih => by_cases h : p a <;> simp [h, ih, Nat.add_comm]

lemma ite_and_mul (A B : Prop) [Decidable A] [Decidable B] :
    (if A ∧ B then (1 : Nat) else 0) = (if A then 1 else 0) * (if B then 1 else 0) := by
  by_cases hA : A <;> by_cases hB : B <;> simp [hA, hB]

/-- Number of the three offset coordinates of a single axis that stay
inside the lattice bounds. -/
def axis_count (room_size c : Nat) : Nat :=
  (if 1 ≤ c then 1 else 0) + 1 + (if c + 1 < room_size then 1 else 0)

lemma make_neighbors_length (x y z room_size : Nat)
    (hx : x < room_size) (hy : y < room_size) (hz : z < room_size) :
    (make_neighbors_component x y z room_size).length + 1
      = axis_count room_size x * axis_count room_size y * axis_count room_size z := by
  have hxm : in_bounds room_size ((x : Int) - 1) ↔ 1 ≤ x := by
    unfold in_bounds
    omega
  have hym : in_bounds room_size ((y : Int) - 1) ↔ 1 ≤ y := by
    unfold in_bounds
    omega
  have hzm : in_bounds room_size ((z : Int) - 1) ↔ 1 ≤ z := by
    unfold in_bounds
    omega
  have hx0 : in_bounds room_size (x : Int) := by
    unfold in_bounds
    omega
  have hy0 : in_bounds room_size (y : Int) := by
    unfold in_bounds
    omega
  have hz0 : in_bounds room_size (z : Int) := by
    unfold in_bounds
    omega
  have hxp : in_bounds room_size ((x : Int) + 1) ↔ x + 1 < room_size := by
    unfold in_bounds
    omega
  have hyp' : in_bounds room_size ((y : Int) + 1) ↔ y + 1 < room_size := by
    unfold in_bounds
    omega
  have hzp : in_bounds room_size ((z : Int) + 1) ↔ z + 1 < room_size := by
    unfold in_bounds
    omega
  have exm : ¬((x : Int) = (x : Int) - 1) := by omega
  have exp' : ¬((x : Int) = (x : Int) + 1) := by omega
  have eym : ¬((y : Int) = (y : Int) - 1) := by omega
  have eyp : ¬((y : Int) = (y : Int) + 1) := by omega
  have ezm : ¬((z : Int) = (z : Int) - 1) := by omega
  have ezp : ¬((z : Int) = (z : Int) + 1) := by omega
  unfold make_neighbors_component
  simp only [List.flatMap_cons, List.flatMap_nil, List.append_nil, List.length_append,
    length_filterMap_ite, List.map_cons, List.map_nil, List.sum_cons, List.sum_nil,
    hxm, hym, hzm, hxp, hyp', hzp, hx0, hy0, hz0, exm, exp', eym, eyp, ezm, ezp,
    iff_true_intro hx0, iff_true_intro hy0, iff_true_intro hz0,
    eq_self_iff_true, true_and, and_true, false_and, and_false, not_true, not_false_iff,
    if_false, if_true, ite_and_mul, axis_count]
  generalize (if 1 ≤ x then (1 : Nat) else 0) = ax
  generalize (if x + 1 < room_size then (1 : Nat) else 0) = bx
  generalize (if 1 ≤ y then (1 : Nat) else 0) = ay
  generalize (if y + 1 < room_size then (1 : Nat) else 0) = by'
  generalize (if 1 ≤ z then (1 : Nat) else 0) = az
  generalize (if z + 1 < room_size then (1 : Nat) else 0) = bz
  ring

/-- A coordinate lies on the lattice boundary of its axis. -/
def on_boundary (room_size c : Nat) : Prop :=
  c = 0 ∨ c = room_size - 1

instance (room_size c : Nat) : Decidable (on_boundary room_size c) :=
  inferInstanceAs (Decidable (_ ∨ _))

/-- Number of axes on which the cell sits on the lattice boundary:
3 for a corner cell, 2 for an edge cell, 1 for a face cell, 0 for an
interior cell. -/
def boundary_axes (room_size x y z : Nat) : Nat :=
  (if on_boundary room_size x then 1 else 0) + (if on_boundary room_size y then 1 else 0)
    + (if on_boundary room_size z then 1 else 0)

lemma axis_count_eq (room_size c : Nat) (hc : c < room_size) (h3 : 3 ≤ room_size) :
    axis_count room_size c = if on_boundary room_size c then 2 else 3 := by
  unfold axis_count on_boundary
  by_cases h0 : c = 0
  · subst h0
    simp [show (0 : Nat) + 1 < room_size from by omega]
  · by_cases h1 : c = room_size - 1
    · simp [h1, show 1 ≤ room_size - 1 from by omega,
        show ¬(room_size - 1 + 1 < room_size) from by omega, h0]
    · simp [h0, h1, show 1 ≤ c from by omega, show c + 1 < room_size from by omega]

lemma mem_make_neighbors (x y z room_size e : Nat)
    (hx : x < room_size) (hy : y < room_size) (hz : z < room_size) :
    e ∈ make_neighbors_component x y z room_size ↔
      ∃ a b c : Nat, a < room_size ∧ b < room_size ∧ c < room_size ∧
        x ≤ a + 1 ∧ a ≤ x + 1 ∧ y ≤ b + 1 ∧ b ≤ y + 1 ∧ z ≤ c + 1 ∧ c ≤ z + 1 ∧
        ¬(a = x ∧ b = y ∧ c = z) ∧ e = make_entity a b c := by
  unfold make_neighbors_component
  simp only [List.mem_flatMap, List.mem_filterMap, List.mem_cons, List.not_mem_nil,
    or_false, Option.ite_none_right_eq_some, Option.some.injEq, in_bounds]
  constructor
  · rintro ⟨dz, hdz, dy, hdy, dx, hdx, ⟨⟨hbx1, hbx2⟩, ⟨hby1, hby2⟩, ⟨hbz1, hbz2⟩, hne⟩, he⟩
    refine ⟨dx.toNat, dy.toNat, dz.toNat, by omega, by omega, by omega,
      by omega, by omega, by omega, by omega, by omega, by omega, ?_, he.symm⟩
    intro hcon
    exact hne ⟨by omega, by omega, by omega⟩
  · rintro ⟨a, b, c, ha, hb, hc, h1, h2, h3, h4, h5, h6, hne, he⟩
    refine ⟨(c : Int), by omega, (b : Int), by omega, (a : Int), by omega,
      ⟨⟨by omega, by omega⟩, ⟨by omega, by omega⟩, ⟨by omega, by omega⟩, ?_⟩, ?_⟩
    · intro hcon
      exact hne ⟨by omega, by omega, by omega⟩
    · simp [he]

/-- C4: for every in-bounds coordinate triple, the Neighbor Table Builder
produces exactly the encoded identifiers of the in-bounds coordinate
triples within one step on every axis, excluding the cell itself; for
room_size at least 3 a corner cell gets exactly 7 neighbors, an edge cell
11, a face cell 17, and an interior cell 26. -/
theorem make_neighbors_spec (x y z room_size : Nat)
    (hx : x < room_size) (hy : y < room_size) (hz : z < room_size)
    (h3 : 3 ≤ room_size) :
    (∀ e, e ∈ make_neighbors_component x y z room_size ↔
      ∃ a b c : Nat, a < room_size ∧ b < room_size ∧ c < room_size ∧
        x ≤ a + 1 ∧ a ≤ x + 1 ∧ y ≤ b + 1 ∧ b ≤ y + 1 ∧ z ≤ c + 1 ∧ c ≤ z + 1 ∧
        ¬(a = x ∧ b = y ∧ c = z) ∧ e = make_entity a b c) ∧
    (boundary_axes room_size x y z = 3 →
      (make_neighbors_component x y z room_size).length = 7) ∧
    (boundary_axes room_size x y z = 2 →
      (make_neighbors_component x y z room_size).length = 11) ∧
    (boundary_axes room_size x y z = 1 →
      (make_neighbors_component x y z room_size).length = 17) ∧
    (boundary_axes room_size x y z = 0 →
      (make_neighbors_component x y z room_size).length = 26) := by
  have hL := make_neighbors_length x y z room_size hx hy hz
  rw [axis_count_eq room_size x hx h3, axis_count_eq room_size y hy h3,
    axis_count_eq room_size z hz h3] at hL
  refine ⟨fun e => mem_make_neighbors x y z room_size e hx hy hz, ?_, ?_, ?_, ?_⟩
  all_goals
    intro hcnt
    by_cases bx : on_boundary room_size x <;>
      by_cases byy : on_boundary room_size y <;>
        by_cases bz : on_boundary room_size z <;>
          simp only [boundary_axes, bx, byy, bz, if_true, if_false] at hcnt hL <;>
            omega

theorem make_neighbors_spec_witness :
    (make_neighbors_component 0 0 0 3).length = 7 ∧
    (make_neighbors_component 1 1 1 3).length = 26 :=
  ⟨(make_neighbors_spec 0 0 0 3 (by decide) (by decide) (by decide) (by decide)).2.1
      (by decide),
   (make_neighbors_spec 1 1 1 3 (by decide) (by decide) (by decide) (by decide)).2.2.2.2
      (by decide)⟩

/-- C8: the neighbor relation is symmetric: for in-bounds coordinate
triples A and B, if the encoded identifier of B appears in the neighbor
list built for A then the encoded identifier of A appears in the neighbor
list built for B. -/
theorem neighbors_symm (room_size : Nat) (hn : room_size ≤ 256)
    (xa ya za xb yb zb : Nat)
    (hxa : xa < room_size) (hya : ya < room_size) (hza : za < room_size)
    (hxb : xb < room_size) (hyb : yb < room_size) (hzb : zb < room_size)
    (hmem : make_entity xb yb zb ∈ make_neighbors_component xa ya za room_size) :
    make_entity xa ya za ∈ make_neighbors_component xb yb zb room_size := by
  obtain ⟨a, b, c, ha, hb, hc, h1, h2, h3, h4, h5, h6, hne, he⟩ :=
    (mem_make_neighbors xa ya za room_size (make_entity xb yb zb) hxa hya hza).1 hmem
  obtain ⟨e1, e2, e3⟩ :=
    make_entity_inj room_size hn xb yb zb a b c hxb hyb hzb ha hb hc he
  subst e1
  subst e2
  subst e3
  exact (mem_make_neighbors xb yb zb room_size (make_entity xa ya za) hxb hyb hzb).2
    ⟨xa, ya, za, hxa, hya, hza, by omega, by omega, by omega, by omega, by omega, by omega,
      fun hcon => hne ⟨hcon.1.symm, hcon.2.1.symm, hcon.2.2.symm⟩, rfl⟩

theorem neighbors_symm_witness :
    make_entity 1 1 1 ∈ make_neighbors_component 0 0 0 3 ∧
    make_entity 0 0 0 ∈ make_neighbors_component 1 1 1 3 :=
  ⟨by decide,
   neighbors_symm 3 (by decide) 0 0 0 1 1 1 (by decide) (by decide) (by decide)
     (by decide) (by decide) (by decide) (by decide)⟩

/-- One lattice cell as spawned by `setup_system`: the entity identifier
plus the `State`, `ActiveNeighbors` and `Neighbors` components. -/
structure Cell where
  id : Nat
  state : State
  active_neighbors : Nat
  neighbors : List Nat
deriving DecidableEq, Repr

/-- The coordinate enumeration of `setup_system`: z outermost, then y,
then x. -/
def coords (room_size : Nat) : List (Nat × Nat × Nat) :=
  (List.range room_size).flatMap fun z =>
    (List.range room_size).flatMap fun y =>
      (List.range room_size).map fun x => (x, y, z)

/-- The simulation-core part of `setup_system`: spawn one cell per
coordinate triple, holding a sampled initial state, the component
`ActiveNeighbors(0)` and the precomputed neighbor list. The rng draws are
abstracted as a function from the coordinates to the initial state. -/
def setup_system (room_size : Nat) (init : Nat → Nat → Nat → State) : List Cell :=
  (coords room_size).map fun p =>
    { id := make_entity p.1 p.2.1 p.2.2
      state := init p.1 p.2.1 p.2.2
      active_neighbors := 0
      neighbors := make_neighbors_component p.1 p.2.1 p.2.2 room_size }

/-- The `State` query by entity identifier (`neighbor_query.get`): look
the identifier up among the cells. -/
def world_of (cells : List Cell) : Nat → Option State :=
  fun e => (cells.find? fun c => c.id == e).map Cell.state

/-- The per-neighbor closure inside `count_neighbors_system`: the local
accumulator `s` starts at `Active`; a cache hit returns the cached state
at once; otherwise a successful world query overwrites `s`, and `s` is
inserted into the cache and returned. -/
def lookup_state (world : Nat → Option State) (cache : Nat → Option State) (e : Nat) :
    State × (Nat → Option State) :=
  match cache e with
  | some s => (s, cache)
  | none =>
    match world e with
    | some st => (st, fun k => if k = e then some st else cache k)
    | none => (State.Active, fun k => if k = e then some State.Active else cache k)

/-- Map a neighbor list to the observed states, threading the cache. -/
def states_of (world : Nat → Option State) :
    List Nat → (Nat → Option State) → List State × (Nat → Option State)
  | [], cache => ([], cache)
  | e :: es, cache =>
    let p := lookup_state world cache e
    let q := states_of world es p.2
    (p.1 :: q.1, q.2)

/-- The per-cell body of `count_neighbors_system`: map the neighbor list
to states, keep the Active ones, count them, and truncate the count to
`u8`. -/
def count_neighbors_cell (world : Nat → Option State) (cache : Nat → Option State)
    (ns : List Nat) : Nat × (Nat → Option State) :=
  let q := states_of world ns cache
  ((q.1.filter fun s => s == State.Active).length % 256, q.2)

/-- The loop of `count_neighbors_system` over the cell query on a tick
where the timer finished: write each cell's fresh count, threading the
per-tick cache. -/
def count_pass (world : Nat → Option State) :
    List Cell → (Nat → Option State) → List Cell
  | [], _ => []
  | c :: cs, cache =>
    let p := count_neighbors_cell world cache c.neighbors
    { c with active_neighbors := p.1 } :: count_pass world cs p.2

/-- The Neighbor Counter pass of one tick: a fresh empty cache, the world
queried is the pre-tick cell list itself. -/
def count_neighbors_system (cells : List Cell) : List Cell :=
  count_pass (world_of cells) cells fun _ => none

/-- The Rule Engine pass `update_state_system`: every cell whose count was
freshly written this tick (all of them) gets the transition applied to its
own state and count. -/
def update_state_system (rules : GameRules) (cells : List Cell) : List Cell :=
  cells.map fun c => { c with state := update_state rules c.state c.active_neighbors }

/-- The state the Neighbor Counter effectively attributes to an
identifier: the queried state, or the accumulator default `Active` when
the lookup fails. -/
def observed_state (world : Nat → Option State) (e : Nat) : State :=
  match world e with
  | some st => st
  | none => State.Active

/-- The cache only ever holds what a direct lookup would observe. -/
def cache_ok (world : Nat → Option State) (cache : Nat → Option State) : Prop :=
  ∀ e s, cache e = some s → s = observed_state world e

lemma cache_ok_empty (world : Nat → Option State) :
    cache_ok world fun _ => none := by
  intro e s h
  cases h

lemma lookup_state_spec (world cache : Nat → Option State) (e : Nat)
    (h : cache_ok world cache) :
    (lookup_state world cache e).1 = observed_state world e ∧
    cache_ok world (lookup_state world cache e).2 := by
  unfold lookup_state
  cases hc : cache e with
  | some s => exact ⟨h e s hc, h⟩
  | none =>
    cases hw : world e with
    | some st =>
      refine ⟨by simp [observed_state, hw], ?_⟩
      intro k s hk
      by_cases hke : k = e
      · subst hke
        simp only [if_pos rfl] at hk
        simp [observed_state, hw, ← Option.some.inj hk]
      · simp only [if_neg hke] at hk
        exact h k s hk
    | none =>
      refine ⟨by simp [observed_state, hw], ?_⟩
      intro k s hk
      by_cases hke : k = e
      · subst hke
        simp only [if_pos rfl] at hk
        simp [observed_state, hw, ← Option.some.inj hk]
      · simp only [if_neg hke] at hk
        exact h k s hk

lemma states_of_spec (world : Nat → Option State) (ns : List Nat) :
    ∀ cache, cache_ok world cache →
      (states_of world ns cache).1 = ns.map (observed_state world) ∧
      cache_ok world (states_of world ns cache).2 := by
  induction ns with
  | nil =>
    intro cache h
    exact ⟨rfl, h⟩
  | cons e es ih =>
    intro cache h
    obtain ⟨h1, h2⟩ := lookup_state_spec world cache e h
    obtain ⟨h3, h4⟩ := ih _ h2
    exact ⟨by simp [states_of, h1, h3], by simpa [states_of] using h4⟩

lemma count_cell_spec (world cache : Nat → Option State) (ns : List Nat)
    (h : cache_ok world cache) :
    (count_neighbors_cell world cache ns).1
        = (ns.countP fun e => observed_state world e == State.Active) % 256 ∧
    cache_ok world (count_neighbors_cell world cache ns).2 := by
  obtain ⟨h1, h2⟩ := states_of_spec world ns cache h
  refine ⟨?_, by simpa [count_neighbors_cell] using h2⟩
  simp only [count_neighbors_cell, h1, List.filter_map, List.length_map,
    ← List.countP_eq_length_filter]
  rfl

lemma count_pass_spec (world : Nat → Option State) :
    ∀ (cells : List Cell) (cache : Nat → Option State), cache_ok world cache →
      count_pass world cells cache
        = cells.map fun c =>
            { c with active_neighbors :=
                (c.neighbors.countP fun e => observed_state world e == State.Active)
                  % 256 } := by
  intro cells
  induction cells with
  | nil =>
    intro cache h
    rfl
  | cons c cs ih =>
    intro cache h
    obtain ⟨h1, h2⟩ := count_cell_spec world cache c.neighbors h
    simp [count_pass, h1, ih _ h2]

/-- C2: during the Neighbor Counter pass no cell's state (nor its
identifier or neighbor list) is mutated, and every cell's freshly written
count equals the number of its neighbors whose state is Active in the
pre-tick snapshot; the cell list is universally quantified, so the result
is independent of the order in which the cells are processed. -/
theorem count_pass_snapshot (cells : List Cell)
    (hres : ∀ c ∈ cells, ∀ e ∈ c.neighbors, (world_of cells e).isSome = true)
    (hlen : ∀ c ∈ cells, c.neighbors.length < 256) :
    ((count_neighbors_system cells).map fun c => (c.id, c.state, c.neighbors))
        = cells.map (fun c => (c.id, c.state, c.neighbors)) ∧
    ∀ c ∈ count_neighbors_system cells,
      c.active_neighbors
        = c.neighbors.countP fun e => world_of cells e == some State.Active := by
  have hpass := count_pass_spec (world_of cells) cells (fun _ => none)
    (cache_ok_empty (world_of cells))
  unfold count_neighbors_system
  rw [hpass]
  constructor
  · simp
  · intro c hc
    simp only [List.mem_map] at hc
    obtain ⟨c₀, hc₀, rfl⟩ := hc
    simp only
    have hcong : (c₀.neighbors.countP fun e =>
          observed_state (world_of cells) e == State.Active)
        = c₀.neighbors.countP fun e => world_of cells e == some State.Active := by
      apply List.countP_congr
      intro e he
      have hsome := hres c₀ hc₀ e he
      cases hw : world_of cells e with
      | none => rw [hw] at hsome; cases hsome
      | some st => cases st <;> simp [observed_state, hw]
    rw [hcong]
    exact Nat.mod_eq_of_lt
      (lt_of_le_of_lt (List.countP_le_length _) (hlen c₀ hc₀))

theorem count_pass_snapshot_witness :
    ((count_neighbors_system (setup_system 2 fun _ _ _ => State.Active)).map fun c =>
        (c.id, c.state, c.neighbors))
      = (setup_system 2 fun _ _ _ => State.Active).map fun c =>
          (c.id, c.state, c.neighbors) :=
  (count_pass_snapshot (setup_system 2 fun _ _ _ => State.Active)
    (by decide) (by decide)).1

/-- The cache-free neighbor count described by the spec: determine each
neighbor's state by a direct lookup and count the Active ones. -/
def count_active_direct (world : Nat → Option State) (ns : List Nat) : Nat :=
  ns.countP fun e => world e == some State.Active

/-- C7: the per-tick memoization cache is a pure optimization: when every
neighbor identifier resolves in the world, the counts produced by the
cached pass coincide with the direct cache-free counts, for every cell. -/
theorem cache_pure_optimization (world : Nat → Option State) (cells : List Cell)
    (hres : ∀ c ∈ cells, ∀ e ∈ c.neighbors, (world e).isSome = true)
    (hlen : ∀ c ∈ cells, c.neighbors.length < 256) :
    (count_pass world cells fun _ => none).map (fun c => c.active_neighbors)
      = cells.map fun c => count_active_direct world c.neighbors := by
  rw [count_pass_spec world cells (fun _ => none) (cache_ok_empty world)]
  rw [List.map_map]
  apply List.map_congr_left
  intro c hc
  simp only [Function.comp]
  have hcong : (c.neighbors.countP fun e => observed_state world e == State.Active)
      = count_active_direct world c.neighbors := by
    apply List.countP_congr
    intro e he
    have hsome := hres c hc e he
    cases hw : world e with
    | none => rw [hw] at hsome; cases hsome
    | some st => cases st <;> simp [observed_state, hw]
  rw [hcong]
  exact Nat.mod_eq_of_lt
    (lt_of_le_of_lt (le_trans (List.countP_le_length _) (le_refl _)) (hlen c hc))

theorem cache_pure_optimization_witness :
    ((count_pass (world_of (setup_system 2 fun _ _ _ => State.Active))
        (setup_system 2 fun _ _ _ => State.Active) fun _ => none).map
          fun c => c.active_neighbors)
      = (setup_system 2 fun _ _ _ => State.Active).map fun c =>
          count_active_direct (world_of (setup_system 2 fun _ _ _ => State.Active))
            c.neighbors :=
  cache_pure_optimization (world_of (setup_system 2 fun _ _ _ => State.Active))
    (setup_system 2 fun _ _ _ => State.Active) (by decide) (by decide)

lemma mem_coords (room_size x y z : Nat) :
    (x, y, z) ∈ coords room_size ↔ x < room_size ∧ y < room_size ∧ z < room_size := by
  simp only [coords, List.mem_flatMap, List.mem_map, List.mem_range, Prod.mk.injEq]
  constructor
  · rintro ⟨z', hz', y', hy', x', hx', rfl, rfl, rfl⟩
    exact ⟨hx', hy', hz'⟩
  · rintro ⟨hx, hy, hz⟩
    exact ⟨z, hz, y, hy, x, hx, rfl, rfl, rfl⟩

lemma mem_setup (room_size : Nat) (init : Nat → Nat → Nat → State) (c : Cell) :
    c ∈ setup_system room_size init ↔
      ∃ x y z, x < room_size ∧ y < room_size ∧ z < room_size ∧
        c = { id := make_entity x y z, state := init x y z, active_neighbors := 0,
              neighbors := make_neighbors_component x y z room_size } := by
  simp only [setup_system, List.mem_map]
  constructor
  · rintro ⟨⟨x, y, z⟩, hp, rfl⟩
    rw [mem_coords] at hp
    exact ⟨x, y, z, hp.1, hp.2.1, hp.2.2, rfl⟩
  · rintro ⟨x, y, z, hx, hy, hz, rfl⟩
    exact ⟨(x, y, z), (mem_coords room_size x y z).2 ⟨hx, hy, hz⟩, rfl⟩

/-- The identifier space is closed by construction: every identifier in a
neighbor list of the initialized lattice resolves in that lattice. -/
lemma setup_resolves (room_size : Nat) (init : Nat → Nat → Nat → State) :
    ∀ c ∈ setup_system room_size init, ∀ e ∈ c.neighbors,
      (world_of (setup_system room_size init) e).isSome = true := by
  intro c hc e he
  obtain ⟨x, y, z, hx, hy, hz, rfl⟩ := (mem_setup room_size init c).1 hc
  obtain ⟨a, b, c', ha, hb, hc', _, _, _, _, _, _, _, rfl⟩ :=
    (mem_make_neighbors x y z room_size e hx hy hz).1 he
  unfold world_of
  rw [Option.isSome_map', List.find?_isSome]
  refine ⟨Cell.mk (make_entity a b c') (init a b c') 0
    (make_neighbors_component a b c' room_size), ?_, ?_⟩
  · exact (mem_setup room_size init _).2 ⟨a, b, c', ha, hb, hc', rfl⟩
  · simp

/-- C6 as stated fails on the code: a cell with a neighbor identifier that
is absent from the lattice gets that dangling neighbor silently counted as
Active, instead of the lookup failure being a fail-fast contract
violation. -/
theorem lookup_default_counterexample :
    world_of [Cell.mk 0 State.Inactive 0 [99]] 99 = none ∧
    (count_neighbors_system [Cell.mk 0 State.Inactive 0 [99]]).map
      (fun c => c.active_neighbors) = [1] :=
  ⟨rfl, rfl⟩

/-- C6 amended: when a lookup of a queried identifier fails during the
Neighbor Counter pass, the implementation silently substitutes the loop
accumulator default `Active` and caches it, rather than failing fast;
such failures are unreachable for the lattice built at initialization,
whose neighbor lists contain only identifiers that resolve. -/
theorem lookup_default_spec :
    (∀ world cache : Nat → Option State, ∀ e : Nat, cache e = none → world e = none →
      (lookup_state world cache e).1 = State.Active ∧
      (lookup_state world cache e).2 e = some State.Active) ∧
    (∀ room_size : Nat, ∀ init : Nat → Nat → Nat → State,
      ∀ c ∈ setup_system room_size init, ∀ e ∈ c.neighbors,
        (world_of (setup_system room_size init) e).isSome = true) := by
  constructor
  · intro world cache e h1 h2
    unfold lookup_state
    rw [h1, h2]
    exact ⟨rfl, by simp⟩
  · intro room_size init
    exact setup_resolves room_size init

theorem lookup_default_spec_witness :
    ((lookup_state (fun _ => none) (fun _ => none) 3).1 = State.Active ∧
      (lookup_state (fun _ => none) (fun _ => none) 3).2 3 = some State.Active) ∧
    (world_of (setup_system 2 fun _ _ _ => State.Inactive) (make_entity 1 1 1)).isSome
      = true :=
  ⟨lookup_default_spec.1 (fun _ => none) (fun _ => none) 3 rfl rfl,
   lookup_default_spec.2 2 (fun _ _ _ => State.Inactive)
     (Cell.mk (make_entity 0 0 0) State.Inactive 0 (make_neighbors_component 0 0 0 2))
     (by decide) (make_entity 1 1 1) (by decide)⟩

/-- The two per-tick passes, in their scheduled order within a tick. -/
inductive SimPass where
  | count
  | rule (rules : GameRules)

def apply_pass (cells : List Cell) : SimPass → List Cell
  | SimPass.count => count_neighbors_system cells
  | SimPass.rule r => update_state_system r cells

lemma axis_count_le (room_size c : Nat) : axis_count room_size c ≤ 3 := by
  unfold axis_count
  split_ifs <;> omega

lemma make_neighbors_le_26 (x y z room_size : Nat)
    (hx : x < room_size) (hy : y < room_size) (hz : z < room_size) :
    (make_neighbors_component x y z room_size).length ≤ 26 := by
  have h := make_neighbors_length x y z room_size hx hy hz
  have hle : axis_count room_size x * axis_count room_size y * axis_count room_size z
      ≤ 27 :=
    le_trans
      (Nat.mul_le_mul (Nat.mul_le_mul (axis_count_le room_size x)
        (axis_count_le room_size y)) (axis_count_le room_size z))
      (by norm_num)
  omega

/-- The invariant carried by C9: counts bounded by the neighbor-list
length, which is itself at most 26. -/
def bounded_cells (cells : List Cell) : Prop :=
  ∀ c ∈ cells, c.active_neighbors ≤ c.neighbors.length ∧ c.neighbors.length ≤ 26

lemma bounded_setup (room_size : Nat) (init : Nat → Nat → Nat → State) :
    bounded_cells (setup_system room_size init) := by
  intro c hc
  obtain ⟨x, y, z, hx, hy, hz, rfl⟩ := (mem_setup room_size init c).1 hc
  exact ⟨Nat.zero_le _, make_neighbors_le_26 x y z room_size hx hy hz⟩

lemma bounded_pass (cells : List Cell) (p : SimPass) (h : bounded_cells cells) :
    bounded_cells (apply_pass cells p) := by
  cases p with
  | count =>
    unfold apply_pass count_neighbors_system
    rw [count_pass_spec _ _ _ (cache_ok_empty _)]
    intro c hc
    simp only [List.mem_map] at hc
    obtain ⟨c₀, hc₀, rfl⟩ := hc
    exact ⟨le_trans (Nat.mod_le _ _) (List.countP_le_length _), (h c₀ hc₀).2⟩
  | rule r =>
    intro c hc
    simp only [apply_pass, update_state_system, List.mem_map] at hc
    obtain ⟨c₀, hc₀, rfl⟩ := hc
    exact h c₀ hc₀

lemma bounded_foldl (passes : List SimPass) :
    ∀ cells, bounded_cells cells → bounded_cells (passes.foldl apply_pass cells) := by
  induction passes with
  | nil =>
    intro cells h
    exact h
  | cons p ps ih =>
    intro cells h
    exact ih _ (bounded_pass cells p h)

/-- C9: after initialization and any sequence of Neighbor Counter and Rule
Engine passes, every cell's active-neighbor count is at most the length of
its neighbor list and at most 26. -/
theorem active_neighbors_bounded (room_size : Nat) (init : Nat → Nat → Nat → State)
    (passes : List SimPass) :
    ∀ c ∈ passes.foldl apply_pass (setup_system room_size init),
      c.active_neighbors ≤ c.neighbors.length ∧ c.active_neighbors ≤ 26 := by
  intro c hc
  obtain ⟨h1, h2⟩ := bounded_foldl passes _ (bounded_setup room_size init) c hc
  exact ⟨h1, le_trans h1 h2⟩

theorem active_neighbors_bounded_witness :
    (Cell.mk 0 State.Active 0 []).active_neighbors
        ≤ (Cell.mk 0 State.Active 0 []).neighbors.length ∧
    (Cell.mk 0 State.Active 0 []).active_neighbors ≤ 26 :=
  active_neighbors_bounded 1 (fun _ _ _ => State.Active) [SimPass.count]
    (Cell.mk 0 State.Active 0 []) (by decide)

/-- Modelled from the spec: the `UpdateTimer` resource wraps the external
crate's repeating `Timer`, whose code is not part of this repository. Per
the spec it accumulates elapsed delta-time and, once the accumulated time
reaches the configured interval, fires exactly once and resets its
accumulator, repeating indefinitely. Time is idealized as rational. -/
structure UpdateTimer where
  elapsed : ℚ
  duration : ℚ
  finished : Bool

/-- Modelled from the spec: one `tick` call with a delta-time increment:
accumulate, mark finished and reset the accumulator exactly when the
accumulated time reaches the interval. -/
def UpdateTimer.tick (t : UpdateTimer) (delta : ℚ) : UpdateTimer :=
  if t.duration ≤ t.elapsed + delta then
    { t with elapsed := 0, finished := true }
  else
    { t with elapsed := t.elapsed + delta, finished := false }

/-- The timer resource constructed in `main`:
`Timer::from_seconds(0.6, true)`, a repeating timer of 0.6 time units. -/
def default_timer : UpdateTimer :=
  { elapsed := 0, duration := 3 / 5, finished := false }

/-- The simulation state carried across frames: the timer resource plus
the lattice. -/
structure Sim where
  timer : UpdateTimer
  cells : List Cell

/-- One full tick of simulation mutation: the Neighbor Counter pass
followed by the Rule Engine pass. -/
def simulation_tick (rules : GameRules) (cells : List Cell) : List Cell :=
  update_state_system rules (count_neighbors_system cells)

/-- One frame of the app loop: `count_neighbors_system` ticks the timer
and runs its pass only when the timer finished; `update_state_system`
runs in the following stage on the cells whose counts were just written,
which is all of them on a fired tick and none otherwise. -/
def frame (rules : GameRules) (s : Sim) (delta : ℚ) : Sim :=
  let t := s.timer.tick delta
  if t.finished then { timer := t, cells := simulation_tick rules s.cells }
  else { timer := t, cells := s.cells }

/-- C5: the Tick Scheduler gates all simulation mutation: below the
configured interval (default 0.6 time units of accumulated delta-time) a
frame leaves every cell untouched and only grows the accumulator; once the
accumulated delta-time reaches the interval, exactly one tick of mutation
runs and the accumulator resets to zero, so a following frame fires again
only after accumulating the full interval anew — and does fire again once
it does, indefinitely. -/
theorem tick_scheduler_gates (rules : GameRules) (s : Sim) (delta : ℚ) :
    default_timer.duration = 3 / 5 ∧
    (s.timer.elapsed + delta < s.timer.duration →
      (frame rules s delta).cells = s.cells ∧
      (frame rules s delta).timer.elapsed = s.timer.elapsed + delta) ∧
    (s.timer.duration ≤ s.timer.elapsed + delta →
      (frame rules s delta).cells = simulation_tick rules s.cells ∧
      (frame rules s delta).timer.elapsed = 0) ∧
    (∀ delta' : ℚ, s.timer.duration ≤ s.timer.elapsed + delta →
      delta' < s.timer.duration →
      (frame rules (frame rules s delta) delta').cells = (frame rules s delta).cells) ∧
    (∀ delta' : ℚ, s.timer.duration ≤ s.timer.elapsed + delta →
      s.timer.duration ≤ delta' →
      (frame rules (frame rules s delta) delta').cells
        = simulation_tick rules (frame rules s delta).cells) := by
  refine ⟨rfl, ?_, ?_, ?_, ?_⟩
  · intro h
    have hc : ¬ s.timer.duration ≤ s.timer.elapsed + delta := not_le.mpr h
    simp [frame, UpdateTimer.tick, hc]
  · intro h
    simp [frame, UpdateTimer.tick, h]
  · intro delta' h h'
    simp [frame, UpdateTimer.tick, h, not_le.mpr h']
  · intro delta' h h'
    simp [frame, UpdateTimer.tick, h, h']

theorem tick_scheduler_gates_witness :
    (frame default_rules (Sim.mk default_timer []) 1).cells
        = simulation_tick default_rules [] ∧
    (frame default_rules (Sim.mk default_timer []) 1).timer.elapsed = 0 :=
  (tick_scheduler_gates default_rules (Sim.mk default_timer []) 1).2.2.1
    (by norm_num [default_timer])

end Plato
